import Mathlib

/-!
Verification of the dinoscan repository: client-side payload shaping
(`src/screens/CameraScanner.tsx`), the inference gateway
(`src/api/analyze.ts`) and its legacy variants (`src/unnamed/part_000`,
`src/unnamed/part_001`).

Strings of the JavaScript source are modelled as `List Char`; JSON values
(the result of `JSON.parse`) are modelled by the inductive type `Json`
below, with numbers restricted to the natural numbers actually used by the
contract (`Confidence : 0..100`).  All definitions are executable.
-/

namespace Dinoscan

/-- Whitespace recognised by the JSON grammar and by the trims the source
performs (space, tab, line feed, carriage return). -/
def isWsChar (c : Char) : Bool :=
  c = ' ' || c = '\t' || c = '\n' || c = '\r'

/-- Model of JavaScript `String.prototype.trim`: drop whitespace from both
ends. -/
def jsTrim (s : List Char) : List Char :=
  ((s.dropWhile isWsChar).reverse.dropWhile isWsChar).reverse

/-- Model of a JavaScript value produced by `JSON.parse`.  Numbers are
restricted to naturals, which covers every numeric field of the
`AnalysisResult` contract. -/
inductive Json where
  | null : Json
  | bool : Bool → Json
  | num : Nat → Json
  | str : List Char → Json
  | arr : List Json → Json
  | obj : List (List Char × Json) → Json

/-- JavaScript strict equality `v === "s"` with a string literal. -/
def jsEqStr (v : Json) (s : List Char) : Bool :=
  match v with
  | Json.str t => t = s
  | _ => false

/-- Property access `o?.k` on a parsed value: defined only on objects; on
duplicate keys the last occurrence wins, as in `JSON.parse`. -/
def getField (j : Json) (k : List Char) : Option Json :=
  match j with
  | Json.obj fs => (fs.reverse.find? (fun p => p.1 = k)).map (fun p => p.2)
  | _ => none

/-- JavaScript truthiness of a parsed value: `null`, `false`, `0` and the
empty string are falsy, everything else truthy. -/
def jsTruthy (j : Json) : Bool :=
  match j with
  | Json.null => false
  | Json.bool b => b
  | Json.num n => n != 0
  | Json.str s => !s.isEmpty
  | Json.arr _ => true
  | Json.obj _ => true

/-- Model of the JavaScript pattern `v || d` applied to an optional field:
absent or falsy yields the default. -/
def jsOr (o : Option Json) (d : Json) : Json :=
  match o with
  | some v => if jsTruthy v then v else d
  | none => d

/-- Decimal digit characters `0`-`9`. -/
def digitChar (n : Nat) : Char := Char.ofNat (48 + n)

/-- Fuelled decimal printer for naturals; fuel `n + 1` always suffices. -/
def natToDecAux : Nat → Nat → List Char
  | 0, _ => []
  | f + 1, n =>
    if n < 10 then [digitChar n]
    else natToDecAux f (n / 10) ++ [digitChar (n % 10)]

/-- Decimal representation of a natural, as JavaScript prints it. -/
def natToDec (n : Nat) : List Char := natToDecAux (n + 1) n

/-- Accumulating decimal reader, the numeric part of the `JSON.parse`
model: consumes leading digits, leaves the rest. -/
def parseNatAcc : List Char → Nat → Nat × List Char
  | [], acc => (acc, [])
  | c :: rest, acc =>
    if c.isDigit then parseNatAcc rest (acc * 10 + (c.toNat - 48)) else (acc, c :: rest)

/-- Lower-case hexadecimal digit, as emitted by `JSON.stringify` in
`\u00XX` escapes. -/
def hexDigitChar (n : Nat) : Char :=
  if n < 10 then Char.ofNat (48 + n) else Char.ofNat (87 + n)

/-- Value of a hexadecimal digit character, accepting both cases. -/
def hexVal (c : Char) : Option Nat :=
  if 48 ≤ c.toNat ∧ c.toNat ≤ 57 then some (c.toNat - 48)
  else if 97 ≤ c.toNat ∧ c.toNat ≤ 102 then some (c.toNat - 87)
  else if 65 ≤ c.toNat ∧ c.toNat ≤ 70 then some (c.toNat - 55)
  else none

/-- Escape of a single character inside a JSON string literal, exactly as
`JSON.stringify` produces it: the two mandatory escapes, short forms for
the common control characters, `\u00XX` for the remaining controls, and
the character itself otherwise. -/
def escChar (c : Char) : List Char :=
  if c = '"' then ['\\', '"']
  else if c = '\\' then ['\\', '\\']
  else if c = '\n' then ['\\', 'n']
  else if c = '\t' then ['\\', 't']
  else if c = '\r' then ['\\', 'r']
  else if c.toNat = 8 then ['\\', 'b']
  else if c.toNat = 12 then ['\\', 'f']
  else if c.toNat < 32 then
    ['\\', 'u', '0', '0', hexDigitChar (c.toNat / 16), hexDigitChar (c.toNat % 16)]
  else [c]

/-- Body of a JSON string literal: every character escaped as needed. -/
def escBody (s : List Char) : List Char := s.flatMap escChar

/-- A complete JSON string literal including the surrounding quotes. -/
def escString (s : List Char) : List Char := '"' :: escBody s ++ ['"']

/-- Single-character escapes accepted after a backslash by the string
reader of the `JSON.parse` model. -/
def simpleEsc (e : Char) : Option Char :=
  if e = '"' then some '"'
  else if e = '\\' then some '\\'
  else if e = '/' then some '/'
  else if e = 'n' then some '\n'
  else if e = 't' then some '\t'
  else if e = 'r' then some '\r'
  else if e = 'b' then some (Char.ofNat 8)
  else if e = 'f' then some (Char.ofNat 12)
  else none

/-- Fuelled reader of a JSON string body (the opening quote already
consumed): returns the decoded characters and the input after the closing
quote.  Unescaped control characters are rejected, as by `JSON.parse`. -/
def parseStr : Nat → List Char → Option (List Char × List Char)
  | 0, _ => none
  | _ + 1, [] => none
  | f + 1, c :: rest =>
    if c = '"' then some ([], rest)
    else if c = '\\' then
      match rest with
      | [] => none
      | e :: rest2 =>
        if e = 'u' then
          match rest2 with
          | h1 :: h2 :: h3 :: h4 :: rest3 =>
            match hexVal h1, hexVal h2, hexVal h3, hexVal h4 with
            | some a, some b, some c2, some d =>
              (parseStr f rest3).map
                (fun p => (Char.ofNat (a * 4096 + b * 256 + c2 * 16 + d) :: p.1, p.2))
            | _, _, _, _ => none
          | _ => none
        else
          match simpleEsc e with
          | some ch => (parseStr f rest2).map (fun p => (ch :: p.1, p.2))
          | none => none
    else if c.toNat < 32 then none
    else (parseStr f rest).map (fun p => (c :: p.1, p.2))

/-- Drop leading JSON whitespace. -/
def skipWs (s : List Char) : List Char := s.dropWhile isWsChar

mutual

/-- Fuelled recursive-descent model of `JSON.parse` on the fragment the
repository exchanges (objects, arrays, strings, natural numbers, booleans,
null).  Returns the parsed value and the unconsumed input.  Fuel is spent
once per nesting step, so fuel `length + 1` always suffices. -/
def parseValue : Nat → List Char → Option (Json × List Char)
  | 0, _ => none
  | f + 1, s0 =>
    match skipWs s0 with
    | [] => none
    | c :: rest =>
      if c = '"' then
        (parseStr (rest.length + 1) rest).map (fun p => (Json.str p.1, p.2))
      else if c = '\x7b' then
        match skipWs rest with
        | c2 :: rest2 =>
          if c2 = '\x7d' then some (Json.obj [], rest2)
          else (parseMembers f (c2 :: rest2)).map (fun p => (Json.obj p.1, p.2))
        | [] => none
      else if c = '[' then
        match skipWs rest with
        | c2 :: rest2 =>
          if c2 = ']' then some (Json.arr [], rest2)
          else (parseElems f (c2 :: rest2)).map (fun p => (Json.arr p.1, p.2))
        | [] => none
      else if c.isDigit then
        let p := parseNatAcc (c :: rest) 0
        some (Json.num p.1, p.2)
      else if c = 'n' then
        match rest with
        | 'u' :: 'l' :: 'l' :: r => some (Json.null, r)
        | _ => none
      else if c = 't' then
        match rest with
        | 'r' :: 'u' :: 'e' :: r => some (Json.bool true, r)
        | _ => none
      else if c = 'f' then
        match rest with
        | 'a' :: 'l' :: 's' :: 'e' :: r => some (Json.bool false, r)
        | _ => none
      else none

/-- Member list of a JSON object, positioned at the first key; consumes
through the closing brace. -/
def parseMembers : Nat → List Char → Option (List (List Char × Json) × List Char)
  | 0, _ => none
  | f + 1, s =>
    match s with
    | c :: rest =>
      if c = '"' then
        match parseStr (rest.length + 1) rest with
        | none => none
        | some (key, rest2) =>
          match skipWs rest2 with
          | c3 :: rest3 =>
            if c3 = ':' then
              match parseValue f rest3 with
              | none => none
              | some (v, rest4) =>
                match skipWs rest4 with
                | c5 :: rest5 =>
                  if c5 = ',' then
                    (parseMembers f (skipWs rest5)).map (fun p => ((key, v) :: p.1, p.2))
                  else if c5 = '\x7d' then some ([(key, v)], rest5)
                  else none
                | [] => none
            else none
          | [] => none
      else none
    | [] => none

/-- Element list of a JSON array, positioned at the first element;
consumes through the closing bracket. -/
def parseElems : Nat → List Char → Option (List Json × List Char)
  | 0, _ => none
  | f + 1, s =>
    match parseValue f s with
    | none => none
    | some (v, rest) =>
      match skipWs rest with
      | c2 :: rest2 =>
        if c2 = ',' then (parseElems f rest2).map (fun p => (v :: p.1, p.2))
        else if c2 = ']' then some ([v], rest2)
        else none
      | [] => none

end

/-- Model of `JSON.parse` on a whole string: one value, then nothing but
whitespace. -/
def parseJson (s : List Char) : Option Json :=
  match parseValue (s.length + 1) s with
  | some (v, rest) => if skipWs rest = [] then some v else none
  | none => none

/-- The greedy brace match `t.match(/\x7b[\s\S]*\x7d/)` of
`src/api/analyze.ts`: the span from the first opening brace through the
last closing brace, when the latter lies strictly after the former. -/
def jsonSpan (t : List Char) : Option (List Char) :=
  let fromBrace := t.dropWhile (fun c => c ≠ '\x7b')
  let upToClose := (fromBrace.reverse.dropWhile (fun c => c ≠ '\x7d')).reverse
  if upToClose.isEmpty then none else some upToClose

/-- Failures `extractJson` can throw: its own typed `MODEL_NOT_JSON`
error, or the `SyntaxError` escaping from the second, unguarded
`JSON.parse` call. -/
inductive ExtractErr where
  | modelNotJson (snippet : List Char)
  | rawParseFailure

/-- Function `extractJson` of `src/api/analyze.ts` lines 83-93: trim, parse
directly, else parse the first-to-last brace span, else throw
`MODEL_NOT_JSON` with the first 240 characters.  A failing parse of the
brace span escapes as a plain syntax error, exactly as in the source
where only the first `JSON.parse` sits inside the `try`. -/
def extractJson (text : List Char) : Except ExtractErr Json :=
  let t := jsTrim text
  match parseJson t with
  | some v => Except.ok v
  | none =>
    match jsonSpan t with
    | some m =>
      match parseJson m with
      | some v => Except.ok v
      | none => Except.error ExtractErr.rawParseFailure
    | none => Except.error (ExtractErr.modelNotJson (t.take 240))

/-- Function `safeJsonParse` of `src/api/analyze.ts`: `JSON.parse(raw || "\x7b\x7d")`
with failures mapped to `null`. -/
def safeJsonParse (raw : List Char) : Option Json :=
  parseJson (if raw.isEmpty then '\x7b' :: ['\x7d'] else raw)

/-- One string-typed field of a content element, kept only when its trim
is truthy, as in the push conditions of `pickAnyText`. -/
def strFieldTexts (c : Json) (k : List Char) : List (List Char) :=
  match getField c k with
  | some (Json.str s) => if (jsTrim s).isEmpty then [] else [s]
  | _ => []

/-- Texts one element of a `content` array contributes: its `text` field
and its `content` field, both pushed when string-typed and non-blank. -/
def elemTexts (c : Json) : List (List Char) :=
  strFieldTexts c ("text".toList) ++ strFieldTexts c ("content".toList)

/-- Texts the `content` array of one output item contributes. -/
def contentTexts (o : Json) : List (List Char) :=
  match getField o ("content".toList) with
  | some (Json.arr cs) => (cs.map elemTexts).flatten
  | _ => []

/-- Texts the `summary` array of one output item contributes. -/
def summaryTexts (o : Json) : List (List Char) :=
  match getField o ("summary".toList) with
  | some (Json.arr ss) => (ss.map (fun s => strFieldTexts s ("text".toList))).flatten
  | _ => []

/-- All texts one output item contributes, content first, then summary,
in source order. -/
def itemTexts (o : Json) : List (List Char) := contentTexts o ++ summaryTexts o

/-- Function `pickAnyText` of `src/api/analyze.ts` lines 99-125: walk `up.output`
when it is an array, collect the non-blank `content[].text`,
`content[].content` and `summary[].text` strings of every item, join them
with newlines, trim; any other shape yields the empty string. -/
def pickAnyText (up : Json) : List Char :=
  match getField up ("output".toList) with
  | some (Json.arr out) => jsTrim (List.intercalate ['\n'] ((out.map itemTexts).flatten))
  | _ => []

/-- Nullish coalescing `??`: `null` behaves like an absent value. -/
def jsCoal (o : Option Json) : Option Json :=
  match o with
  | some Json.null => none
  | some v => some v
  | none => none

/-- Index access `a?.[i]`: element of an array, or the property named by
the decimal index on an object. -/
def getIndex (j : Json) (i : Nat) : Option Json :=
  match j with
  | Json.arr l => l.get? i
  | Json.obj _ => getField j (natToDec i)
  | _ => none

/-- The path `json?.choices?.[0]?.message?.content` probed by the legacy
handler `src/unnamed/part_001`. -/
def chatMessagePath (up : Json) : Option Json := do
  let ch ← getField up ("choices".toList)
  let c0 ← getIndex ch 0
  let m ← getField c0 ("message".toList)
  getField m ("content".toList)

/-- The fallback path `json?.choices?.[0]?.delta?.content` of the same
handler. -/
def chatDeltaPath (up : Json) : Option Json := do
  let ch ← getField up ("choices".toList)
  let c0 ← getIndex ch 0
  let d ← getField c0 ("delta".toList)
  getField d ("content".toList)

/-- Text extraction of the legacy chat-completions handler
(`src/unnamed/part_001` lines 110-113):
`choices[0].message.content ?? choices[0].delta.content ?? ""`. -/
def chatExtract (up : Json) : Json :=
  match jsCoal (chatMessagePath up) with
  | some v => v
  | none =>
    match jsCoal (chatDeltaPath up) with
    | some v => v
    | none => Json.str []

/-- The fully-defaulted record the legacy handler sends back. -/
structure SafeFossil where
  Name : Json
  Era : Json
  Classification : Json
  Length : Json
  Rarity : Json
  Confidence : Json
  Note : Json

/-- Field-level repair of `src/unnamed/part_001` lines 130-139: every
field defaulted when absent or falsy, `Confidence` defaulted when not a
finite number. -/
def repairFossil (data : Json) : SafeFossil where
  Name := jsOr (getField data ("Name".toList)) (Json.str ("未知标本".toList))
  Era := jsOr (getField data ("Era".toList)) (Json.str ("待定".toList))
  Classification := jsOr (getField data ("Classification".toList)) (Json.str ("待定".toList))
  Length := jsOr (getField data ("Length".toList)) (Json.str ("待定".toList))
  Rarity := jsOr (getField data ("Rarity".toList)) (Json.str ("普通".toList))
  Confidence :=
    match getField data ("Confidence".toList) with
    | some (Json.num n) => Json.num n
    | _ => Json.num 50
  Note := jsOr (getField data ("Note".toList)) (Json.str ("需要更多角度与更清晰纹理以提升判断精度。".toList))

/-- Function `base64Bytes` of `src/api/analyze.ts`: `Math.floor(len * 3 / 4)`. -/
def base64Bytes (b64 : List Char) : Nat := b64.length * 3 / 4

/-- Function `approxBase64Bytes` of `src/screens/CameraScanner.tsx`, the identical
estimate used on the client. -/
def approxBase64Bytes (b64 : List Char) : Nat := b64.length * 3 / 4

/-- Two-digit zero-padded decimal fraction part. -/
def padTwo (n : Nat) : List Char := if n < 10 then '0' :: natToDec n else natToDec n

/-- Model of `(imgBytes / 1024 / 1024).toFixed(2)`: the byte count in
megabytes rounded half-up to two decimals on the exact rational. -/
def toFixedTwoMB (bytes : Nat) : List Char :=
  let h := (bytes * 100 * 2 + 1048576) / 2097152
  natToDec (h / 100) ++ '.' :: padTwo (h % 100)

/-- Value of one base64 alphabet character; `none` for everything else,
which Node's lenient decoder skips. -/
def b64Val (c : Char) : Option Nat :=
  if 65 ≤ c.toNat ∧ c.toNat ≤ 90 then some (c.toNat - 65)
  else if 97 ≤ c.toNat ∧ c.toNat ≤ 122 then some (c.toNat - 71)
  else if 48 ≤ c.toNat ∧ c.toNat ≤ 57 then some (c.toNat + 4)
  else if c = '+' then some 62
  else if c = '/' then some 63
  else none

/-- Regroup 6-bit values into bytes, with the standard handling of a
trailing group of two or three characters. -/
def b64Groups : List Nat → List Nat
  | a :: b :: c :: d :: rest =>
    (a * 4 + b / 16) :: ((b % 16) * 16 + c / 4) :: ((c % 4) * 64 + d) :: b64Groups rest
  | [a, b] => [a * 4 + b / 16]
  | [a, b, c] => [a * 4 + b / 16, (b % 16) * 16 + c / 4]
  | _ => []

/-- Model of `Buffer.from(b64, "base64")`: drop characters outside the
alphabet (including padding), then regroup.  The Node decoder is total,
so the `INVALID_BASE64` branch of the source is unreachable. -/
def decodeBase64 (s : List Char) : List Nat := b64Groups (s.filterMap b64Val)

/-- Outcome of `assertLooksLikeImageBase64`. -/
inductive ImgCheck where
  | ok : ImgCheck
  | tooSmall : ImgCheck
  | notImage : ImgCheck

/-- The magic-number sniff of `src/api/analyze.ts` lines 50-81 on the
decoded bytes: at least 16 bytes, then JPEG `FF D8 FF`, the PNG
signature, or a RIFF/WEBP container. -/
def looksLikeImage (bytes : List Nat) : ImgCheck :=
  if bytes.length < 16 then ImgCheck.tooSmall
  else
    match bytes with
    | b0 :: b1 :: b2 :: b3 :: b4 :: b5 :: b6 :: b7 :: b8 :: b9 :: b10 :: b11 :: _ =>
      if b0 = 255 ∧ b1 = 216 ∧ b2 = 255 then ImgCheck.ok
      else if b0 = 137 ∧ b1 = 80 ∧ b2 = 78 ∧ b3 = 71 ∧ b4 = 13 ∧ b5 = 10 ∧ b6 = 26 ∧ b7 = 10 then
        ImgCheck.ok
      else if (b0 = 82 ∧ b1 = 73 ∧ b2 = 70 ∧ b3 = 70) ∧ (b8 = 87 ∧ b9 = 69 ∧ b10 = 66 ∧ b11 = 80) then
        ImgCheck.ok
      else ImgCheck.notImage
    | _ => ImgCheck.notImage

/-- JavaScript `String(v)` coercion on a parsed value.  The array case is
left empty: no claim exercises coercion of arrays, and the repository
never sends one where a string is expected. -/
def jsToString (j : Json) : List Char :=
  match j with
  | Json.str s => s
  | Json.num n => natToDec n
  | Json.null => "null".toList
  | Json.bool true => "true".toList
  | Json.bool false => "false".toList
  | Json.arr _ => []
  | Json.obj _ => "[object Object]".toList

/-- Server-side configuration read from the environment. -/
structure Env where
  arkApiKey : Option (List Char)
  arkModel : Option (List Char)
  arkBaseUrl : Option (List Char)

/-- Truthiness of an environment variable: present and non-empty. -/
def envStrTruthy : Option (List Char) → Bool
  | some s => !s.isEmpty
  | none => false

/-- Failures of `readJson`: the streaming 4.2 MB ceiling, or a body that
is not JSON. -/
inductive ReadErr where
  | tooLarge : ReadErr
  | badJson (msg : List Char) : ReadErr

/-- Outcome of the single upstream `fetch`: the abort timer fired, or a
reply with its `ok` flag, status and raw text. -/
inductive UpstreamOutcome where
  | timeout : UpstreamOutcome
  | reply (ok : Bool) (status : Nat) (text : List Char) : UpstreamOutcome

/-- An HTTP response of the gateway; `body = none` is the empty `end()`
of the 204 preflight answer. -/
structure HResponse where
  status : Nat
  body : Option Json

/-- Request mode of the dual-mode gateway. -/
inductive Mode where
  | image : Mode
  | text : Mode

/-- Error body with only an `error` field. -/
def errObj (e : List Char) : Json := Json.obj [("error".toList, Json.str e)]

/-- Error body with `error` and `detail` fields. -/
def errObjD (e d : List Char) : Json :=
  Json.obj [("error".toList, Json.str e), ("detail".toList, Json.str d)]

/-- Detail string of the 413 image-size rejection, built around the
computed megabyte value. -/
def imageTooLargeDetail (imgBytes : Nat) : List Char :=
  "图片约 ".toList ++ toFixedTwoMB imgBytes ++ "MB，建议 <= 1.5MB。".toList

/-- Message attached to a caught `extractJson` failure, as stringified by
the catch-all of the handler.  The engine-specific `SyntaxError` message
text is abstracted to its name. -/
def extractErrMsg : ExtractErr → List Char
  | ExtractErr.modelNotJson snippet => "MODEL_NOT_JSON: ".toList ++ snippet
  | ExtractErr.rawParseFailure => "SyntaxError".toList

/-- The post-fetch half of the handler (`src/api/analyze.ts` lines
237-295): upstream pass-through on non-2xx, `safeJsonParse`,
`pickAnyText`, `extractJson`, then the mode-specific 200 body; a
timeout or a thrown extraction error becomes a 502 `Function failed`. -/
def upstreamStage (mode : Mode) (up : UpstreamOutcome) : HResponse × Bool :=
  match up with
  | UpstreamOutcome.timeout =>
    (⟨502, some (errObjD ("Function failed".toList) ("Timeout after 25000ms".toList))⟩, true)
  | UpstreamOutcome.reply ok status text =>
    if !ok then
      (⟨502, some (Json.obj [("error".toList, Json.str ("Upstream Ark error".toList)),
        ("upstreamStatus".toList, Json.num status),
        ("upstreamBody".toList, Json.str (text.take 2000)),
        ("hint".toList, Json.str (if status = 400 then
          "常见原因：模型不支持该请求结构、图片不是有效 base64、或 model id/区域不匹配。".toList
          else "请检查 ARK_BASE_URL/ARK_MODEL/ARK_API_KEY 与网络连通性。".toList))])⟩, true)
    else
      match safeJsonParse text with
      | none =>
        (⟨502, some (Json.obj [("error".toList, Json.str ("Ark returned non-JSON".toList)),
          ("upstreamBody".toList, Json.str (text.take 2000))])⟩, true)
      | some uj =>
        let anyText := pickAnyText uj
        if anyText.isEmpty then
          (⟨502, some (Json.obj [("error".toList, Json.str ("Empty model text".toList)),
            ("detail".toList, Json.str ("Ark 返回体里没拿到文本字段（可能被截断/字段结构变化）。".toList)),
            ("upstream".toList, uj)])⟩, true)
        else
          match extractJson anyText with
          | Except.ok data =>
            match mode with
            | Mode.text =>
              (⟨200, some (Json.obj
                [("title".toList, jsOr (getField data ("title".toList)) (Json.str ("科研简报".toList))),
                 ("content".toList, jsOr (getField data ("content".toList)) (Json.str ("未能生成内容。".toList)))])⟩, true)
            | Mode.image => (⟨200, some data⟩, true)
          | Except.error e =>
            (⟨502, some (errObjD ("Function failed".toList) (extractErrMsg e))⟩, true)

/-- The image-mode flow of the handler (`src/api/analyze.ts` lines
173-195 and onward): require a non-empty payload, enforce the 1.8 MB
estimated-size ceiling, sniff the magic numbers, then call upstream. -/
def imageFlow (s : List Char) (up : UpstreamOutcome) : HResponse × Bool :=
  if s.isEmpty = true then
    (⟨400, some (errObj ("Missing imageBase64".toList))⟩, false)
  else if 10 * base64Bytes s > 18874368 then
    (⟨413, some (errObjD ("Image too large".toList)
      (imageTooLargeDetail (base64Bytes s)))⟩, false)
  else
    match looksLikeImage (decodeBase64 s) with
    | ImgCheck.notImage =>
      (⟨400, some (errObjD ("Invalid image".toList)
        ("imageBase64 解码后不像有效图片（请传 jpeg/png/webp 的 base64，不要用 AA== 这类测试串）。".toList))⟩, false)
    | ImgCheck.tooSmall =>
      (⟨400, some (errObjD ("Invalid image".toList)
        ("imageBase64 校验失败：IMAGE_TOO_SMALL".toList))⟩, false)
    | ImgCheck.ok => upstreamStage Mode.image up

/-- The text-mode flow (`src/api/analyze.ts` lines 196-197 and onward):
require a prompt, then call upstream. -/
def textFlow (p : List Char) (up : UpstreamOutcome) : HResponse × Bool :=
  if p.isEmpty = true then
    (⟨400, some (errObjD ("Missing prompt".toList) ("text 模式必须提供 prompt。".toList))⟩, false)
  else upstreamStage Mode.text up

/-- The per-body half of the gateway handler (`src/api/analyze.ts` lines
162-236): resolve `body?.mode || "image"`, dispatch on it, and feed each
flow the field the source binds (`String(body?.imageBase64 || "")`,
`String(body?.prompt || "")`). -/
def handleBody (body : Json) (up : UpstreamOutcome) : HResponse × Bool :=
  if jsEqStr (jsOr (getField body ("mode".toList)) (Json.str ("image".toList)))
      ("image".toList) = true then
    imageFlow (jsToString (jsOr (getField body ("imageBase64".toList)) (Json.str []))) up
  else if jsEqStr (jsOr (getField body ("mode".toList)) (Json.str ("image".toList)))
      ("text".toList) = true then
    textFlow (jsToString (jsOr (getField body ("prompt".toList)) (Json.str []))) up
  else
    (⟨400, some (errObjD ("Invalid mode".toList) ("mode 只能是 \"image\" 或 \"text\"".toList))⟩, false)

/-- The gateway handler of `src/api/analyze.ts`, modelled as a pure
function of the configuration, the request method, the outcome of
reading the body, and the outcome of the single upstream call.  The
second component records whether the upstream call was reached.  Guard
order follows the source exactly: preflight, method, configuration, body
read, then the per-body dispatch. -/
def handler (env : Env) (method : List Char) (bodyOutcome : Except ReadErr Json)
    (up : UpstreamOutcome) : HResponse × Bool :=
  if method = "OPTIONS".toList then (⟨204, none⟩, false)
  else if method ≠ "POST".toList then
    (⟨405, some (errObj ("Method Not Allowed".toList))⟩, false)
  else if ¬(envStrTruthy env.arkApiKey = true ∧ envStrTruthy env.arkModel = true) then
    (⟨500, some (errObjD ("Missing env".toList)
      ("请在 Vercel Environment Variables 配置 ARK_API_KEY 与 ARK_MODEL（Production 也要配），并重新部署。".toList))⟩, false)
  else
    match bodyOutcome with
    | Except.error ReadErr.tooLarge =>
      (⟨413, some (errObjD ("Payload too large".toList) ("请求体过大，请压缩图片或减少字段。".toList))⟩, false)
    | Except.error (ReadErr.badJson m) =>
      (⟨400, some (errObjD ("Bad JSON".toList) m)⟩, false)
    | Except.ok body => handleBody body up

/-- A compression preset of the client ladders: maximum edge length and
JPEG quality. -/
structure Preset where
  maxDim : Nat
  quality : ℚ

/-- The live-capture ladder of `captureFromVideoAutoCompress`. -/
def videoAttempts : List Preset :=
  [⟨1280, 0.75⟩, ⟨1024, 0.70⟩, ⟨900, 0.65⟩, ⟨800, 0.62⟩, ⟨720, 0.60⟩,
   ⟨640, 0.58⟩, ⟨560, 0.56⟩, ⟨512, 0.54⟩, ⟨480, 0.52⟩, ⟨420, 0.50⟩]

/-- The file-upload ladder of `compressFileToJpegBase64`. -/
def fileAttempts : List Preset :=
  [⟨1600, 0.78⟩, ⟨1400, 0.74⟩, ⟨1200, 0.70⟩, ⟨1024, 0.68⟩, ⟨900, 0.64⟩,
   ⟨800, 0.62⟩, ⟨720, 0.60⟩, ⟨640, 0.58⟩, ⟨560, 0.56⟩, ⟨512, 0.54⟩, ⟨480, 0.52⟩]

/-- The shared ladder loop of `captureFromVideoAutoCompress` and
`compressFileToJpegBase64`: encode each preset in order, keep the latest
attempt as `best`, break at the first attempt whose estimated size is at
or under the limit.  Returns the chosen `(base64, bytes)` attempt
together with the number of encode attempts performed; `none` only on an
empty ladder (then the source's `best!` would be `null`). -/
def autoCompressLoop (encode : Preset → List Char) (limit : Nat) :
    List Preset → Option ((List Char × Nat) × Nat)
  | [] => none
  | a :: rest =>
    let b64 := encode a
    let bytes := approxBase64Bytes b64
    if bytes ≤ limit then some ((b64, bytes), 1)
    else
      match autoCompressLoop encode limit rest with
      | some (r, k) => some (r, k + 1)
      | none => some ((b64, bytes), 1)

/-- The scale factor of `canvasToJpegBase64`:
`Math.min(1, maxDim / Math.max(sourceW, sourceH))`. -/
def canvasScale (maxDim w h : ℕ) : ℚ :=
  min 1 ((maxDim : ℚ) / ((max w h : ℕ) : ℚ))

/-- Assignment `canvas.width = Math.round(sourceW * scale)`. -/
def canvasWidth (maxDim w h : ℕ) : ℤ :=
  round ((w : ℚ) * canvasScale maxDim w h)

/-- Assignment `canvas.height = Math.round(sourceH * scale)`. -/
def canvasHeight (maxDim w h : ℕ) : ℤ :=
  round ((h : ℚ) * canvasScale maxDim w h)

/-- The next character, if any, does not continue a decimal literal. -/
def HeadNotDigit (rest : List Char) : Prop :=
  ∀ c, rest.head? = some c → c.isDigit = false

/-! ### Printing of flat JSON values, a model of `JSON.stringify` on the
fragment the `AnalysisResult` contract inhabits -/

/-- A value of the flat fragment: a string or a number.  Every field of an
`AnalysisResult`-shaped object is of this form. -/
def FlatVal (v : Json) : Prop := (∃ s, v = Json.str s) ∨ (∃ n, v = Json.num n)

/-- Printing of a flat value, as `JSON.stringify` emits it. -/
def printVal : Json → List Char
  | Json.str s => escString s
  | Json.num n => natToDec n
  | _ => []

/-- Printing of one object member. -/
def printMember (kv : List Char × Json) : List Char :=
  escString kv.1 ++ ':' :: printVal kv.2

/-- Comma-separated members, as `JSON.stringify` emits them (no
whitespace). -/
def printMembersSep : List (List Char × Json) → List Char
  | [] => []
  | [kv] => printMember kv
  | kv :: kv2 :: tl => printMember kv ++ ',' :: printMembersSep (kv2 :: tl)

/-- Printing of a flat object. -/
def printObjFlat (fields : List (List Char × Json)) : List Char :=
  '\x7b' :: (printMembersSep fields ++ ['\x7d'])

/-! ### The `AnalysisResult` contract -/

/-- The three-valued rarity of the contract. -/
inductive ARRarity where
  | common : ARRarity
  | rare : ARRarity
  | legendary : ARRarity

/-- The Chinese literal each rarity value is serialised to. -/
def ARRarity.zhText : ARRarity → List Char
  | ARRarity.common => "普通".toList
  | ARRarity.rare => "稀有".toList
  | ARRarity.legendary => "传说".toList

/-- A value representable in the `AnalysisResult` shape of the contract:
four free-text fields, the enumerated rarity, a numeric confidence and a
note. -/
structure AnalysisResult where
  arName : List Char
  arEra : List Char
  arClassification : List Char
  arLength : List Char
  arRarity : ARRarity
  arConfidence : Nat
  arNote : List Char

/-- The field list of the JSON object an `AnalysisResult` serialises to. -/
def arFields (x : AnalysisResult) : List (List Char × Json) :=
  [("Name".toList, Json.str x.arName),
   ("Era".toList, Json.str x.arEra),
   ("Classification".toList, Json.str x.arClassification),
   ("Length".toList, Json.str x.arLength),
   ("Rarity".toList, Json.str x.arRarity.zhText),
   ("Confidence".toList, Json.num x.arConfidence),
   ("Note".toList, Json.str x.arNote)]

/-- The parsed-object form of an `AnalysisResult`. -/
def arJson (x : AnalysisResult) : Json := Json.obj (arFields x)

/-- Serialisation of an `AnalysisResult`-shaped value by `JSON.stringify`. -/
def stringifyAR (x : AnalysisResult) : List Char := printObjFlat (arFields x)

/-- The attempt a preset produces: its base64 and the size estimate. -/
def mkAttempt (encode : Preset → List Char) (a : Preset) : List Char × Nat :=
  (encode a, approxBase64Bytes (encode a))

/-! ### Whitespace and trim lemmas -/

theorem skipWs_cons_of_not {c : Char} (l : List Char) (h : isWsChar c = false) :
    skipWs (c :: l) = c :: l := by
  simp [skipWs, List.dropWhile_cons, h]

theorem jsTrim_nil : jsTrim [] = [] := rfl

theorem jsTrim_eq_nil_iff {l : List Char} : jsTrim l = [] ↔ ∀ c ∈ l, isWsChar c = true := by
  unfold jsTrim
  rw [List.reverse_eq_nil_iff, List.dropWhile_eq_nil_iff]
  constructor
  · intro h c hc
    by_cases hw : isWsChar c = true
    · exact hw
    · have hmem : c ∈ l.dropWhile isWsChar := by
        have hsplit : l.takeWhile isWsChar ++ l.dropWhile isWsChar = l :=
          List.takeWhile_append_dropWhile isWsChar l
        rw [← hsplit] at hc
        rcases List.mem_append.mp hc with h1 | h2
        · exact absurd (List.mem_takeWhile_imp h1) (by simpa using hw)
        · exact h2
      exact h c (List.mem_reverse.mpr hmem)
  · intro h c hc
    exact h c (List.Sublist.mem (List.mem_reverse.mp hc) (List.dropWhile_sublist isWsChar))

theorem jsTrim_cons_append {c d : Char} (m : List Char)
    (hc : isWsChar c = false) (hd : isWsChar d = false) :
    jsTrim (c :: (m ++ [d])) = c :: (m ++ [d]) := by
  unfold jsTrim
  rw [List.dropWhile_cons]
  simp only [hc, Bool.false_eq_true, if_false]
  rw [show (c :: (m ++ [d])).reverse = d :: (m.reverse ++ [c]) by simp]
  rw [List.dropWhile_cons]
  simp [hd]

theorem mem_intercalate_of_mem {c : Char} {s : List Char} {L : List (List Char)}
    (hs : s ∈ L) (hc : c ∈ s) : c ∈ List.intercalate ['\n'] L := by
  induction L with
  | nil => cases hs
  | cons t rest ih =>
    rcases List.mem_cons.mp hs with rfl | hmem
    · cases rest with
      | nil => simpa [List.intercalate] using hc
      | cons u us =>
        have hexp : List.intercalate ['\n'] (s :: u :: us)
            = s ++ '\n' :: List.intercalate ['\n'] (u :: us) := by
          simp [List.intercalate, List.intersperse]
        rw [hexp]
        exact List.mem_append.mpr (Or.inl hc)
    · cases rest with
      | nil => cases hmem
      | cons u us =>
        have hexp : List.intercalate ['\n'] (t :: u :: us)
            = t ++ '\n' :: List.intercalate ['\n'] (u :: us) := by
          simp [List.intercalate, List.intersperse]
        rw [hexp]
        refine List.mem_append.mpr (Or.inr ?_)
        exact List.mem_cons.mpr (Or.inr (ih hmem))

/-! ### Decimal printing and reading -/

theorem digitChar_isDigit {n : Nat} (h : n < 10) : (digitChar n).isDigit = true := by
  interval_cases n <;> decide

theorem digitChar_toNat {n : Nat} (h : n < 10) : (digitChar n).toNat = 48 + n := by
  interval_cases n <;> decide

theorem parseNatAcc_digits :
    ∀ (f n : Nat), n < f →
      ∀ (acc : Nat) (rest : List Char),
        parseNatAcc (natToDecAux f n ++ rest) acc
          = parseNatAcc rest (acc * 10 ^ (natToDecAux f n).length + n)
  | 0, n, h, _, _ => absurd h (Nat.not_lt_zero n)
  | f + 1, n, h, acc, rest => by
    by_cases hn : n < 10
    · simp only [natToDecAux, hn, if_true, List.cons_append, List.nil_append]
      rw [parseNatAcc]
      simp [digitChar_isDigit hn, digitChar_toNat hn]
    · simp only [natToDecAux, hn, if_false]
      have hdiv : n / 10 < f := by omega
      rw [List.append_assoc, List.singleton_append]
      rw [parseNatAcc_digits f (n / 10) hdiv acc (digitChar (n % 10) :: rest)]
      rw [parseNatAcc]
      have h10 : n % 10 < 10 := Nat.mod_lt n (by omega)
      simp only [digitChar_isDigit h10, if_true, digitChar_toNat h10]
      have harg : (acc * 10 ^ (natToDecAux f (n / 10)).length + n / 10) * 10 + (48 + n % 10 - 48)
          = acc * 10 ^ (natToDecAux f (n / 10) ++ [digitChar (n % 10)]).length + n := by
        rw [List.length_append, List.length_singleton, pow_succ, ← mul_assoc]
        generalize acc * 10 ^ (natToDecAux f (n / 10)).length = B
        omega
      rw [harg]

theorem parseNatAcc_stop {rest : List Char} (h : HeadNotDigit rest) (acc : Nat) :
    parseNatAcc rest acc = (acc, rest) := by
  cases rest with
  | nil => rfl
  | cons c tl =>
    have := h c rfl
    simp [parseNatAcc, this]

theorem parseNatAcc_natToDec {n : Nat} {rest : List Char} (h : HeadNotDigit rest) :
    parseNatAcc (natToDec n ++ rest) 0 = (n, rest) := by
  unfold natToDec
  rw [parseNatAcc_digits (n + 1) n (Nat.lt_succ_self n) 0 rest]
  rw [parseNatAcc_stop h]
  simp

/-! ### Hexadecimal digits and string-literal escapes -/

theorem hexVal_hexDigitChar {n : Nat} (h : n < 16) : hexVal (hexDigitChar n) = some n := by
  interval_cases n <;> decide

theorem parseStr_escBody :
    ∀ (s : List Char) (f : Nat) (rest : List Char), s.length + 1 ≤ f →
      parseStr f (escBody s ++ '"' :: rest) = some (s, rest)
  | [], f, rest, h => by
    obtain ⟨g, rfl⟩ : ∃ g, f = g + 1 := ⟨f - 1, by omega⟩
    simp [escBody, parseStr]
  | c :: s, f, rest, h => by
    obtain ⟨g, rfl⟩ : ∃ g, f = g + 1 := ⟨f - 1, by omega⟩
    have hg : s.length + 1 ≤ g := by
      simp only [List.length_cons] at h; omega
    have ih := parseStr_escBody s g rest hg
    have hexp : escBody (c :: s) = escChar c ++ escBody s := by
      simp [escBody]
    rw [hexp]
    by_cases h1 : c = '"'
    · subst h1
      simp [escChar, parseStr, simpleEsc, ih]
    · by_cases h2 : c = '\\'
      · subst h2
        simp [escChar, parseStr, simpleEsc, ih]
      · by_cases h3 : c = '\n'
        · subst h3
          simp [escChar, parseStr, simpleEsc, ih]
        · by_cases h4 : c = '\t'
          · subst h4
            simp [escChar, parseStr, simpleEsc, ih]
          · by_cases h5 : c = '\r'
            · subst h5
              simp [escChar, parseStr, simpleEsc, ih]
            · by_cases h6 : c.toNat = 8
              · have hc : c = Char.ofNat 8 := by
                  rw [← h6, Char.ofNat_toNat]
                simp [escChar, h1, h2, h3, h4, h5, h6, parseStr, simpleEsc, hc, ih]
              · by_cases h7 : c.toNat = 12
                · have hc : c = Char.ofNat 12 := by
                    rw [← h7, Char.ofNat_toNat]
                  simp [escChar, h1, h2, h3, h4, h5, h6, h7, parseStr, simpleEsc, hc, ih]
                · by_cases h8 : c.toNat < 32
                  · have hhi : c.toNat / 16 < 16 := by omega
                    have hlo : c.toNat % 16 < 16 := by omega
                    have hchar : Char.ofNat (c.toNat / 16 * 16 + c.toNat % 16) = c := by
                      have harg : c.toNat / 16 * 16 + c.toNat % 16 = c.toNat := by omega
                      rw [harg, Char.ofNat_toNat]
                    simp only [escChar, h1, h2, h3, h4, h5, h6, h7, h8, if_false, if_true,
                      List.cons_append, List.nil_append]
                    rw [parseStr]
                    simp only [show ('\\' : Char) = '"' ↔ False by simp, iff_false, if_false,
                      if_pos rfl]
                    rw [show hexVal '0' = some 0 from rfl, hexVal_hexDigitChar hhi,
                      hexVal_hexDigitChar hlo]
                    simp [ih, hchar]
                  · have hw : escChar c = [c] := by
                      simp [escChar, h1, h2, h3, h4, h5, h6, h7, h8]
                    rw [hw]
                    simp only [List.cons_append, List.nil_append]
                    rw [parseStr.eq_def]
                    simp [h1, h2, h8, ih]

theorem escChar_length_pos (c : Char) : 1 ≤ (escChar c).length := by
  unfold escChar
  repeat' split
  all_goals simp

theorem length_le_escBody (s : List Char) : s.length ≤ (escBody s).length := by
  induction s with
  | nil => simp [escBody]
  | cons c tl ih =>
    have hexp : escBody (c :: tl) = escChar c ++ escBody tl := by simp [escBody]
    rw [hexp, List.length_append, List.length_cons]
    have := escChar_length_pos c
    omega

theorem isDigit_facts {c : Char} (h : c.isDigit = true) :
    isWsChar c = false ∧ (c = '"') = False ∧ (c = '\x7b') = False ∧ (c = '[') = False := by
  have hv : 48 ≤ c.toNat ∧ c.toNat ≤ 57 := by
    simp only [Char.isDigit] at h
    rw [Bool.and_eq_true] at h
    obtain ⟨h1, h2⟩ := h
    constructor
    · simpa [Char.le_def] using h1
    · simpa [Char.le_def] using h2
  refine ⟨?_, ?_, ?_, ?_⟩
  · rw [Bool.eq_false_iff]
    intro hw
    have : c.toNat = 32 ∨ c.toNat = 9 ∨ c.toNat = 10 ∨ c.toNat = 13 := by
      simp only [isWsChar, Bool.or_eq_true, decide_eq_true_eq] at hw
      rcases hw with ((rfl | rfl) | rfl) | rfl <;> simp
    omega
  all_goals
    simp only [eq_iff_iff, iff_false]
    intro hc
    subst hc
    revert hv
    decide

theorem natToDecAux_cons {f n : Nat} (h : n < f) :
    ∃ c t, natToDecAux f n = c :: t ∧ c.isDigit = true := by
  induction f generalizing n with
  | zero => omega
  | succ f ih =>
    by_cases hn : n < 10
    · exact ⟨digitChar n, [], by simp [natToDecAux, hn], digitChar_isDigit hn⟩
    · have hdiv : n / 10 < f := by omega
      obtain ⟨c, t, heq, hdig⟩ := ih hdiv
      exact ⟨c, t ++ [digitChar (n % 10)], by simp [natToDecAux, hn, heq], hdig⟩

theorem natToDec_cons (n : Nat) : ∃ c t, natToDec n = c :: t ∧ c.isDigit = true :=
  natToDecAux_cons (Nat.lt_succ_self n)

/-- Reading back a printed flat value with any positive fuel, provided the
following text does not extend a numeric literal. -/
theorem parseValue_flat {v : Json} (hv : FlatVal v) {f : Nat} (hf : 1 ≤ f)
    {rest : List Char} (hrest : HeadNotDigit rest) :
    parseValue f (printVal v ++ rest) = some (v, rest) := by
  obtain ⟨g, rfl⟩ : ∃ g, f = g + 1 := ⟨f - 1, by omega⟩
  rcases hv with ⟨s, rfl⟩ | ⟨n, rfl⟩
  · have hexp : printVal (Json.str s) ++ rest
        = '"' :: (escBody s ++ '"' :: rest) := by
      simp [printVal, escString]
    rw [hexp, parseValue]
    rw [skipWs_cons_of_not _ (by decide)]
    simp only [if_pos rfl]
    rw [parseStr_escBody s ((escBody s ++ '"' :: rest).length + 1) rest
      (by have := length_le_escBody s; simp [List.length_append]; omega)]
    rfl
  · obtain ⟨c, t, heq, hdig⟩ := natToDec_cons n
    obtain ⟨hws, hq, hob, hbr⟩ := isDigit_facts hdig
    have hexp : printVal (Json.num n) ++ rest = c :: (t ++ rest) := by
      simp [printVal, heq]
    rw [hexp, parseValue]
    rw [skipWs_cons_of_not _ hws]
    simp only [hq, hob, hbr, if_false, hdig, if_true]
    have hread : parseNatAcc (c :: (t ++ rest)) 0 = (n, rest) := by
      have : c :: (t ++ rest) = natToDec n ++ rest := by simp [heq]
      rw [this, parseNatAcc_natToDec hrest]
    simp [hread]

theorem printMembersSep_cons (kv : List Char × Json) (tl : List (List Char × Json)) :
    ∃ t, printMembersSep (kv :: tl) = '"' :: t := by
  cases tl with
  | nil => exact ⟨escBody kv.1 ++ '"' :: ':' :: printVal kv.2, by
      simp [printMembersSep, printMember, escString]⟩
  | cons kv2 tl2 => exact ⟨escBody kv.1 ++ '"' :: ':' :: printVal kv.2
      ++ ',' :: printMembersSep (kv2 :: tl2), by
      simp [printMembersSep, printMember, escString]⟩

/-- Reading back a printed member list through the closing brace. -/
theorem parseMembers_flat :
    ∀ (fields : List (List Char × Json)), fields ≠ [] →
      (∀ kv ∈ fields, FlatVal kv.2) →
      ∀ (f : Nat), fields.length + 1 ≤ f → ∀ (rest : List Char),
        parseMembers f (printMembersSep fields ++ '\x7d' :: rest) = some (fields, rest)
  | [], hne, _, _, _, _ => absurd rfl hne
  | [kv], _, hflat, f, hf, rest => by
    obtain ⟨g, rfl⟩ : ∃ g, f = g + 1 := ⟨f - 1, by omega⟩
    have hg : 1 ≤ g := by simp at hf; omega
    have hexp : printMembersSep [kv] ++ '\x7d' :: rest
        = '"' :: (escBody kv.1 ++ '"' :: (':' :: (printVal kv.2 ++ '\x7d' :: rest))) := by
      simp [printMembersSep, printMember, escString]
    rw [hexp, parseMembers]
    simp only [if_pos rfl]
    rw [parseStr_escBody kv.1 _ _
      (by have := length_le_escBody kv.1; simp [List.length_append]; omega)]
    dsimp only
    rw [skipWs_cons_of_not _ (by decide)]
    simp only [if_pos rfl]
    rw [parseValue_flat (hflat kv (by simp)) hg (by intro c hc; simp at hc; subst hc; decide)]
    dsimp only
    rw [skipWs_cons_of_not _ (by decide)]
    simp
  | kv :: kv2 :: tl, _, hflat, f, hf, rest => by
    obtain ⟨g, rfl⟩ : ∃ g, f = g + 1 := ⟨f - 1, by omega⟩
    have hg : 1 ≤ g := by simp at hf; omega
    have hgrec : (kv2 :: tl).length + 1 ≤ g := by simp at hf ⊢; omega
    have hexp : printMembersSep (kv :: kv2 :: tl) ++ '\x7d' :: rest
        = '"' :: (escBody kv.1 ++ '"' :: (':' :: (printVal kv.2
            ++ ',' :: (printMembersSep (kv2 :: tl) ++ '\x7d' :: rest)))) := by
      simp [printMembersSep, printMember, escString]
    rw [hexp, parseMembers]
    simp only [if_pos rfl]
    rw [parseStr_escBody kv.1 _ _
      (by have := length_le_escBody kv.1; simp [List.length_append]; omega)]
    dsimp only
    rw [skipWs_cons_of_not _ (by decide)]
    simp only [if_pos rfl]
    rw [parseValue_flat (hflat kv (by simp)) hg (by intro c hc; simp at hc; subst hc; decide)]
    dsimp only
    rw [skipWs_cons_of_not _ (by decide)]
    simp only [show (',' : Char) = '\x7d' ↔ False by decide, if_pos rfl]
    obtain ⟨t2, ht2⟩ := printMembersSep_cons kv2 tl
    have hskip : skipWs (printMembersSep (kv2 :: tl) ++ '\x7d' :: rest)
        = printMembersSep (kv2 :: tl) ++ '\x7d' :: rest := by
      rw [ht2]
      exact skipWs_cons_of_not _ (by decide)
    rw [hskip]
    rw [parseMembers_flat (kv2 :: tl) (by simp) (fun p hp => hflat p (by simp [hp])) g hgrec rest]
    rfl

/-- Reading back a printed flat object. -/
theorem parseValue_flatObj {fields : List (List Char × Json)} (hne : fields ≠ [])
    (hflat : ∀ kv ∈ fields, FlatVal kv.2) {f : Nat} (hf : fields.length + 2 ≤ f)
    (rest : List Char) :
    parseValue f (printObjFlat fields ++ rest) = some (Json.obj fields, rest) := by
  obtain ⟨g, rfl⟩ : ∃ g, f = g + 1 := ⟨f - 1, by omega⟩
  obtain ⟨kv, tl, rfl⟩ : ∃ kv tl, fields = kv :: tl := by
    cases fields with
    | nil => exact absurd rfl hne
    | cons kv tl => exact ⟨kv, tl, rfl⟩
  have hexp : printObjFlat (kv :: tl) ++ rest
      = '\x7b' :: (printMembersSep (kv :: tl) ++ '\x7d' :: rest) := by
    simp [printObjFlat]
  rw [hexp, parseValue]
  rw [skipWs_cons_of_not _ (by decide)]
  simp only [show ('\x7b' : Char) = '"' ↔ False by decide, iff_false, if_false, if_pos rfl]
  obtain ⟨t2, ht2⟩ := printMembersSep_cons kv tl
  have hskip : skipWs (printMembersSep (kv :: tl) ++ '\x7d' :: rest)
      = printMembersSep (kv :: tl) ++ '\x7d' :: rest := by
    rw [ht2]
    exact skipWs_cons_of_not _ (by decide)
  rw [hskip, ht2]
  simp only [List.cons_append, show ('"' : Char) = '\x7d' ↔ False by decide, iff_false, if_false]
  rw [← List.cons_append, ← ht2]
  rw [parseMembers_flat (kv :: tl) (by simp) hflat g (by simp at hf ⊢; omega) rest]
  rfl

theorem printMember_length (kv : List Char × Json) : 1 ≤ (printMember kv).length := by
  simp [printMember, escString]

theorem printMembersSep_length :
    ∀ fields : List (List Char × Json), fields.length ≤ (printMembersSep fields).length
  | [] => by simp [printMembersSep]
  | [kv] => by
    simp [printMembersSep, printMember, escString]
  | kv :: kv2 :: tl => by
    have ih := printMembersSep_length (kv2 :: tl)
    have h1 := printMember_length kv
    simp only [printMembersSep, List.length_cons, List.length_append] at ih ⊢
    omega

theorem jsTrim_printObjFlat (fields : List (List Char × Json)) :
    jsTrim (printObjFlat fields) = printObjFlat fields := by
  unfold printObjFlat
  exact jsTrim_cons_append _ (by decide) (by decide)

theorem parseJson_printObjFlat {fields : List (List Char × Json)} (hne : fields ≠ [])
    (hflat : ∀ kv ∈ fields, FlatVal kv.2) :
    parseJson (printObjFlat fields) = some (Json.obj fields) := by
  unfold parseJson
  have hlen : fields.length + 2 ≤ (printObjFlat fields).length + 1 := by
    have := printMembersSep_length fields
    simp only [printObjFlat, List.length_cons, List.length_append, List.length_singleton]
    omega
  have h := parseValue_flatObj hne hflat hlen []
  rw [List.append_nil] at h
  rw [h]
  rfl

theorem arFields_flat (x : AnalysisResult) : ∀ kv ∈ arFields x, FlatVal kv.2 := by
  intro kv hkv
  simp only [arFields, List.mem_cons, List.not_mem_nil, or_false] at hkv
  rcases hkv with rfl | rfl | rfl | rfl | rfl | rfl | rfl
  · exact Or.inl ⟨_, rfl⟩
  · exact Or.inl ⟨_, rfl⟩
  · exact Or.inl ⟨_, rfl⟩
  · exact Or.inl ⟨_, rfl⟩
  · exact Or.inl ⟨_, rfl⟩
  · exact Or.inr ⟨_, rfl⟩
  · exact Or.inl ⟨_, rfl⟩

/-- Claim C7: `extractJson` is idempotent on valid JSON input — for every
value `x` representable in the `AnalysisResult` shape,
`extractJson (JSON.stringify x)` recovers exactly the object form of `x`
through the direct-parse branch. -/
theorem c7_extract_json_roundtrip (x : AnalysisResult) :
    extractJson (stringifyAR x) = Except.ok (arJson x) := by
  unfold extractJson stringifyAR
  rw [jsTrim_printObjFlat]
  simp only [parseJson_printObjFlat (by simp [arFields]) (arFields_flat x)]
  rfl

/-- Claim C8, counterexample to the universal part as stated: the input
`"42"` contains no brace-delimited JSON span, yet `extractJson` raises
nothing — direct `JSON.parse` already succeeds, so the span fallback and
`MODEL_NOT_JSON` are never reached. -/
theorem c8_no_span_counterexample :
    extractJson ("42".toList) = Except.ok (Json.num 42) := by rfl

/-- Claim C8, amended: `extractJson "preamble \x7b\"a\":1\x7d trailing"`
returns the object with `a = 1`; `extractJson "not json at all"` raises
`MODEL_NOT_JSON` carrying the first 240 characters; and in general a text
whose trim fails direct JSON parsing and contains no brace-delimited span
raises `MODEL_NOT_JSON` with the first 240 characters of the trimmed
text. -/
theorem c8_extract_json_amended :
    (extractJson ("preamble \x7b\"a\":1\x7d trailing".toList)
        = Except.ok (Json.obj [("a".toList, Json.num 1)]))
    ∧ (extractJson ("not json at all".toList)
        = Except.error (ExtractErr.modelNotJson ("not json at all".toList)))
    ∧ (∀ t : List Char, parseJson (jsTrim t) = none → jsonSpan (jsTrim t) = none →
        extractJson t = Except.error (ExtractErr.modelNotJson ((jsTrim t).take 240))) := by
  refine ⟨by rfl, by rfl, ?_⟩
  intro t hparse hspan
  unfold extractJson
  simp only [hparse, hspan]

/-- Witness for the amended C8 at the concrete input `"xyz"`. -/
theorem c8_extract_json_amended_witness :
    parseJson (jsTrim ("xyz".toList)) = none ∧ jsonSpan (jsTrim ("xyz".toList)) = none ∧
      extractJson ("xyz".toList)
        = Except.error (ExtractErr.modelNotJson ((jsTrim ("xyz".toList)).take 240)) :=
  ⟨by rfl, by rfl, c8_extract_json_amended.2.2 ("xyz".toList) (by rfl) (by rfl)⟩

/-- Claim C1: over a non-empty ladder the shaper always returns an
attempt; it performs at most as many encode attempts as the ladder has
presets; the returned attempt is the first one in ladder order whose
estimated size `floor(len * 3 / 4)` is at or under the budget, and the
last ladder entry's attempt when no preset fits. -/
theorem c1_shaper_first_fit (encode : Preset → List Char) (limit : Nat) :
    ∀ (ladder : List Preset) (h : ladder ≠ []),
      ∃ (r : List Char × Nat) (k : Nat),
        autoCompressLoop encode limit ladder = some (r, k) ∧
        k ≤ ladder.length ∧
        ((∃ a, ladder.find? (fun a => decide (approxBase64Bytes (encode a) ≤ limit)) = some a ∧
            r = mkAttempt encode a) ∨
          (ladder.find? (fun a => decide (approxBase64Bytes (encode a) ≤ limit)) = none ∧
            r = mkAttempt encode (ladder.getLast h)))
  | [], h => absurd rfl h
  | a :: rest, _ => by
    by_cases hle : approxBase64Bytes (encode a) ≤ limit
    · refine ⟨mkAttempt encode a, 1, ?_, by simp, Or.inl ⟨a, ?_, rfl⟩⟩
      · simp [autoCompressLoop, hle, mkAttempt]
      · rw [List.find?_cons_of_pos]
        simpa using hle
    · cases rest with
      | nil =>
        refine ⟨mkAttempt encode a, 1, ?_, by simp, Or.inr ⟨?_, by simp [mkAttempt]⟩⟩
        · simp [autoCompressLoop, hle, mkAttempt]
        · rw [List.find?_cons_of_neg _ (by simpa using hle)]
          rfl
      | cons b tl =>
        obtain ⟨r, k, heq, hk, hres⟩ := c1_shaper_first_fit encode limit (b :: tl) (by simp)
        refine ⟨r, k + 1, ?_, by simp at hk ⊢; omega, ?_⟩
        · rw [autoCompressLoop]
          simp only [if_neg hle, heq]
        · rw [List.find?_cons_of_neg _ (by simpa using hle)]
          rcases hres with ⟨c, hc, hr⟩ | ⟨hnone, hr⟩
          · exact Or.inl ⟨c, hc, hr⟩
          · refine Or.inr ⟨hnone, ?_⟩
            rw [hr, List.getLast_cons (by simp : b :: tl ≠ [])]

theorem strFieldTexts_trim {t : List Char} {c : Json} {k : List Char}
    (h : t ∈ strFieldTexts c k) : jsTrim t ≠ [] := by
  unfold strFieldTexts at h
  rcases hg : getField c k with _ | v
  · rw [hg] at h; cases h
  · rw [hg] at h
    cases v with
    | str s =>
      by_cases he : (jsTrim s).isEmpty
      · simp [he] at h
      · simp [he] at h
        subst h
        simpa [List.isEmpty_iff] using he
    | null => cases h
    | bool b => cases h
    | num n => cases h
    | arr l => cases h
    | obj fs => cases h

theorem summaryTexts_trim {t : List Char} {o : Json} (h : t ∈ summaryTexts o) :
    jsTrim t ≠ [] := by
  unfold summaryTexts at h
  rcases hg : getField o ("summary".toList) with _ | v
  · rw [hg] at h; cases h
  · rw [hg] at h
    cases v with
    | arr ss =>
      rw [List.mem_flatten] at h
      obtain ⟨l, hl, htl⟩ := h
      rw [List.mem_map] at hl
      obtain ⟨s, _, rfl⟩ := hl
      exact strFieldTexts_trim htl
    | null => cases h
    | bool b => cases h
    | num n => cases h
    | str s => cases h
    | obj fs => cases h

/-- Claim C9: an envelope whose output items carry no content text but do
carry summary text yields that summary text, joined with newlines and
trimmed, and in particular not the empty model text. -/
theorem c9_summary_fallback (env : Json) (out : List Json)
    (hout : getField env ("output".toList) = some (Json.arr out))
    (hcontent : ∀ o ∈ out, contentTexts o = [])
    (hsum : (out.map summaryTexts).flatten ≠ []) :
    pickAnyText env
      = jsTrim (List.intercalate ['\n'] ((out.map summaryTexts).flatten)) ∧
    pickAnyText env ≠ [] := by
  have hitems : (out.map itemTexts).flatten = (out.map summaryTexts).flatten := by
    congr 1
    apply List.map_congr_left
    intro o ho
    unfold itemTexts
    rw [hcontent o ho, List.nil_append]
  have hmain : pickAnyText env
      = jsTrim (List.intercalate ['\n'] ((out.map summaryTexts).flatten)) := by
    unfold pickAnyText
    rw [hout]
    dsimp only
    rw [hitems]
  refine ⟨hmain, ?_⟩
  rw [hmain]
  obtain ⟨t, ts, hts⟩ : ∃ t ts, (out.map summaryTexts).flatten = t :: ts := by
    cases hflat : (out.map summaryTexts).flatten with
    | nil => exact absurd hflat hsum
    | cons t ts => exact ⟨t, ts, rfl⟩
  have htmem : t ∈ (out.map summaryTexts).flatten := by rw [hts]; simp
  have htsum : jsTrim t ≠ [] := by
    rw [List.mem_flatten] at htmem
    obtain ⟨l, hl, htl⟩ := htmem
    rw [List.mem_map] at hl
    obtain ⟨o, _, rfl⟩ := hl
    exact summaryTexts_trim htl
  obtain ⟨c, hct, hcw⟩ : ∃ c ∈ t, isWsChar c = false := by
    by_contra hall
    push_neg at hall
    exact htsum (jsTrim_eq_nil_iff.mpr (fun c hc => by
      have := hall c hc
      simpa using this))
  intro hnil
  have := jsTrim_eq_nil_iff.mp hnil c
    (mem_intercalate_of_mem htmem hct)
  rw [this] at hcw
  cases hcw

/-- Witness for C9: a one-item envelope carrying only a summary text. -/
theorem c9_summary_fallback_witness :
    pickAnyText (Json.obj [("output".toList, Json.arr
        [Json.obj [("summary".toList, Json.arr
          [Json.obj [("text".toList, Json.str ("hi".toList))]])]])])
      = jsTrim (List.intercalate ['\n']
          (([Json.obj [("summary".toList, Json.arr
            [Json.obj [("text".toList, Json.str ("hi".toList))]])]].map summaryTexts).flatten)) ∧
    pickAnyText (Json.obj [("output".toList, Json.arr
        [Json.obj [("summary".toList, Json.arr
          [Json.obj [("text".toList, Json.str ("hi".toList))]])]])]) ≠ [] :=
  c9_summary_fallback
    (Json.obj [("output".toList, Json.arr
        [Json.obj [("summary".toList, Json.arr
          [Json.obj [("text".toList, Json.str ("hi".toList))]])]])])
    [Json.obj [("summary".toList, Json.arr
       [Json.obj [("text".toList, Json.str ("hi".toList))]])]] (by rfl)
    (by intro o ho; simp at ho; subst ho; rfl)
    (by decide)

/-- Claim C4, evaluated at the failing input: an output item carrying
both a direct content text and a summary text.  `pickAnyText`
concatenates the two, so the extracted text does include the summary
fragment even though direct answer text was found — contradicting the
function's own doc comment, which promises the summary only as a
fallback. -/
theorem c4_summary_concatenated_with_content :
    pickAnyText (Json.obj [("output".toList, Json.arr
      [Json.obj
        [("content".toList, Json.arr [Json.obj [("text".toList, Json.str ("ANSWER".toList))]]),
         ("summary".toList, Json.arr [Json.obj [("text".toList, Json.str ("REASONING".toList))]])]])])
      = "ANSWER\nREASONING".toList := by rfl

/-- Claim C3, counterexample to the claim as stated: an envelope whose
answer text sits only in `choices[0].message.content` makes the current
normalizer `pickAnyText` return the empty string — the chat-completion
shape is not among the shapes it probes. -/
theorem c3_chat_shape_counterexample :
    pickAnyText (Json.obj [("choices".toList, Json.arr
      [Json.obj [("message".toList,
        Json.obj [("content".toList, Json.str ("hello".toList))])]])])
      = [] := by rfl

/-- Claim C3, amended: the chat-completion shape is handled only by the
legacy chat-completions handler variant, whose extraction returns the
`choices[0].message.content` string (truthy, hence not reported as empty
content); the current gateway's `pickAnyText` does not probe that shape
and yields empty text on an envelope without an `output` array. -/
theorem c3_chat_shape_amended (env : Json) (s : List Char)
    (hpath : chatMessagePath env = some (Json.str s)) (hs : s ≠ [])
    (hnoout : getField env ("output".toList) = none) :
    chatExtract env = Json.str s ∧ jsTruthy (Json.str s) = true ∧ pickAnyText env = [] := by
  refine ⟨?_, ?_, ?_⟩
  · unfold chatExtract
    rw [hpath]
    rfl
  · simp [jsTruthy, List.isEmpty_iff, hs]
  · unfold pickAnyText
    rw [hnoout]

/-- Witness for the amended C3 at a concrete chat-completion envelope. -/
theorem c3_chat_shape_amended_witness :
    chatExtract (Json.obj [("choices".toList, Json.arr
      [Json.obj [("message".toList,
        Json.obj [("content".toList, Json.str ("hi there".toList))])]])])
      = Json.str ("hi there".toList) ∧
    jsTruthy (Json.str ("hi there".toList)) = true ∧
    pickAnyText (Json.obj [("choices".toList, Json.arr
      [Json.obj [("message".toList,
        Json.obj [("content".toList, Json.str ("hi there".toList))])]])]) = [] :=
  c3_chat_shape_amended _ _ (by rfl) (by simp) (by rfl)

theorem jsTruthy_jsOr {o : Option Json} {d : Json} (hd : jsTruthy d = true) :
    jsTruthy (jsOr o d) = true := by
  unfold jsOr
  cases o with
  | none => exact hd
  | some v =>
    by_cases hv : jsTruthy v = true
    · simp [hv]
    · simp only [Bool.not_eq_true] at hv
      simp [hv, hd]

/-- Claim C5, amended, positive half: the legacy handler's field-level
repair yields a record whose six string-valued fields are all truthy and
whose `Confidence` is always a number, for every extracted object. -/
theorem c5_legacy_repair_total (data : Json) :
    jsTruthy (repairFossil data).Name = true ∧
    jsTruthy (repairFossil data).Era = true ∧
    jsTruthy (repairFossil data).Classification = true ∧
    jsTruthy (repairFossil data).Length = true ∧
    jsTruthy (repairFossil data).Rarity = true ∧
    (∃ n : Nat, (repairFossil data).Confidence = Json.num n) ∧
    jsTruthy (repairFossil data).Note = true := by
  refine ⟨?_, ?_, ?_, ?_, ?_, ?_, ?_⟩
  · exact jsTruthy_jsOr (by decide)
  · exact jsTruthy_jsOr (by decide)
  · exact jsTruthy_jsOr (by decide)
  · exact jsTruthy_jsOr (by decide)
  · exact jsTruthy_jsOr (by decide)
  · show ∃ n : Nat, (match getField data ("Confidence".toList) with
      | some (Json.num n) => Json.num n
      | _ => Json.num 50) = Json.num n
    rcases hg : getField data ("Confidence".toList) with _ | v
    · exact ⟨50, rfl⟩
    · cases v with
      | num n => exact ⟨n, rfl⟩
      | null => exact ⟨50, rfl⟩
      | bool b => exact ⟨50, rfl⟩
      | str s => exact ⟨50, rfl⟩
      | arr l => exact ⟨50, rfl⟩
      | obj fs => exact ⟨50, rfl⟩
  · exact jsTruthy_jsOr (by decide)

/-- Claim C5, counterexample to the claim as stated: the current gateway
returns the extracted model JSON unrepaired, so a model reply that is
valid JSON but omits fields produces a 200 body with `Era` (and the other
fields) absent. -/
theorem c5_image_200_missing_field_counterexample :
    handler ⟨some ("k".toList), some ("m".toList), none⟩ ("POST".toList)
        (Except.ok (Json.obj [("imageBase64".toList,
          Json.str ("/9j/4AAAAAAAAAAAAAAAAAAA".toList))]))
        (UpstreamOutcome.reply true 200
          ("\x7b\"output\":[\x7b\"content\":[\x7b\"text\":\"\x7b\\\"Name\\\":\\\"x\\\"\x7d\"\x7d]\x7d]\x7d".toList))
      = (⟨200, some (Json.obj [("Name".toList, Json.str ("x".toList))])⟩, true) ∧
    getField (Json.obj [("Name".toList, Json.str ("x".toList))]) ("Era".toList) = none :=
  ⟨by rfl, by rfl⟩

theorem handler_post_ok (env : Env) (hkey : envStrTruthy env.arkApiKey = true)
    (hmodel : envStrTruthy env.arkModel = true) (body : Json) (up : UpstreamOutcome) :
    handler env ("POST".toList) (Except.ok body) up = handleBody body up := by
  unfold handler
  rw [if_neg (by decide), if_neg (by decide)]
  rw [if_neg (by simp [hkey, hmodel])]

theorem handler_badenv (env : Env)
    (henv : ¬(envStrTruthy env.arkApiKey = true ∧ envStrTruthy env.arkModel = true))
    (bodyOutcome : Except ReadErr Json) (up : UpstreamOutcome) :
    handler env ("POST".toList) bodyOutcome up
      = (⟨500, some (errObjD ("Missing env".toList)
          ("请在 Vercel Environment Variables 配置 ARK_API_KEY 与 ARK_MODEL（Production 也要配），并重新部署。".toList))⟩, false) := by
  unfold handler
  rw [if_neg (by decide), if_neg (by decide), if_pos henv]

theorem handleBody_image {body : Json} (up : UpstreamOutcome)
    (hmode : jsOr (getField body ("mode".toList)) (Json.str ("image".toList))
      = Json.str ("image".toList)) :
    handleBody body up
      = imageFlow (jsToString (jsOr (getField body ("imageBase64".toList)) (Json.str []))) up := by
  unfold handleBody
  rw [hmode]
  rw [if_pos (by rfl)]

/-- Claim C2: a configured gateway receiving a POST image-mode body whose
`imageBase64` estimate `floor(len * 3 / 4)` exceeds the 1.8 MB ceiling
(`10 * bytes > 18874368` is the exact integer form of
`bytes > 1.8 * 1024 * 1024`) answers 413 with the `Image too large`
detail built around the computed megabyte value, and the upstream call is
never reached. -/
theorem c2_size_ceiling_413 (env : Env) (body : Json) (up : UpstreamOutcome) (s : List Char)
    (hkey : envStrTruthy env.arkApiKey = true) (hmodel : envStrTruthy env.arkModel = true)
    (hmode : jsOr (getField body ("mode".toList)) (Json.str ("image".toList))
      = Json.str ("image".toList))
    (himg : jsToString (jsOr (getField body ("imageBase64".toList)) (Json.str [])) = s)
    (hne : s ≠ [])
    (hbig : 10 * base64Bytes s > 18874368) :
    handler env ("POST".toList) (Except.ok body) up
      = (⟨413, some (errObjD ("Image too large".toList)
          (imageTooLargeDetail (base64Bytes s)))⟩, false) ∧
    (∃ pre post, imageTooLargeDetail (base64Bytes s)
        = pre ++ toFixedTwoMB (base64Bytes s) ++ post) := by
  constructor
  · rw [handler_post_ok env hkey hmodel body up, handleBody_image up hmode, himg]
    unfold imageFlow
    rw [if_neg (by simpa [List.isEmpty_iff] using hne)]
    rw [if_pos hbig]
  · exact ⟨"图片约 ".toList, "MB，建议 <= 1.5MB。".toList, rfl⟩

/-- Witness for C2: a 2796204-character `imageBase64`, whose estimate is
2097153 bytes, right at two megabytes. -/
theorem c2_size_ceiling_413_witness :
    handler ⟨some ("k".toList), some ("m".toList), none⟩ ("POST".toList)
        (Except.ok (Json.obj [("imageBase64".toList,
          Json.str (List.replicate 2796204 'A'))]))
        UpstreamOutcome.timeout
      = (⟨413, some (errObjD ("Image too large".toList)
          (imageTooLargeDetail (base64Bytes (List.replicate 2796204 'A'))))⟩, false) ∧
    (∃ pre post, imageTooLargeDetail (base64Bytes (List.replicate 2796204 'A'))
        = pre ++ toFixedTwoMB (base64Bytes (List.replicate 2796204 'A')) ++ post) :=
  c2_size_ceiling_413 ⟨some ("k".toList), some ("m".toList), none⟩
    (Json.obj [("imageBase64".toList, Json.str (List.replicate 2796204 'A'))])
    UpstreamOutcome.timeout (List.replicate 2796204 'A')
    (by rfl) (by rfl) (by rfl) (by rfl)
    (List.ne_nil_of_length_pos (by rw [List.length_replicate]; omega))
    (by
      have hb : base64Bytes (List.replicate 2796204 'A') = 2097153 := by
        rw [base64Bytes, List.length_replicate]
      rw [hb]
      norm_num)

/-- Claim C10, counterexample to the claim as stated: a body whose `mode`
is the empty string — a value that is neither `"image"` nor `"text"` — is
not answered with `Invalid mode`; the falsy mode falls back to image mode
and the request is rejected for its missing `imageBase64` instead. -/
theorem c10_empty_mode_counterexample :
    handler ⟨some ("k".toList), some ("m".toList), none⟩ ("POST".toList)
        (Except.ok (Json.obj [("mode".toList, Json.str [])])) UpstreamOutcome.timeout
      = (⟨400, some (errObj ("Missing imageBase64".toList))⟩, false) := by rfl

/-- Claim C10, amended.  First: a body with no `mode` field, or a falsy
`mode` value, is treated as image mode, so a missing `imageBase64` yields
400 `Missing imageBase64`.  Second: a truthy `mode` that is strictly
neither `"image"` nor `"text"` yields 400 `Invalid mode` with no upstream
call.  Third: for image-mode requests the handler's outcome depends only
on the `mode` and `imageBase64` fields, so the presence of the other
mode's fields (such as `prompt`) is never itself rejected. -/
theorem c10_mode_dispatch_amended :
    (∀ (env : Env) (body : Json) (up : UpstreamOutcome),
      envStrTruthy env.arkApiKey = true → envStrTruthy env.arkModel = true →
      (getField body ("mode".toList) = none ∨
        (∃ mv, getField body ("mode".toList) = some mv ∧ jsTruthy mv = false)) →
      jsToString (jsOr (getField body ("imageBase64".toList)) (Json.str [])) = [] →
      handler env ("POST".toList) (Except.ok body) up
        = (⟨400, some (errObj ("Missing imageBase64".toList))⟩, false)) ∧
    (∀ (env : Env) (body : Json) (up : UpstreamOutcome) (mv : Json),
      envStrTruthy env.arkApiKey = true → envStrTruthy env.arkModel = true →
      getField body ("mode".toList) = some mv → jsTruthy mv = true →
      jsEqStr mv ("image".toList) = false → jsEqStr mv ("text".toList) = false →
      handler env ("POST".toList) (Except.ok body) up
        = (⟨400, some (errObjD ("Invalid mode".toList)
            ("mode 只能是 \"image\" 或 \"text\"".toList))⟩, false)) ∧
    (∀ (env : Env) (b1 b2 : Json) (up : UpstreamOutcome),
      jsOr (getField b1 ("mode".toList)) (Json.str ("image".toList))
        = Json.str ("image".toList) →
      getField b1 ("mode".toList) = getField b2 ("mode".toList) →
      getField b1 ("imageBase64".toList) = getField b2 ("imageBase64".toList) →
      handler env ("POST".toList) (Except.ok b1) up
        = handler env ("POST".toList) (Except.ok b2) up) := by
  refine ⟨?_, ?_, ?_⟩
  · intro env body up hkey hmodel hmode himg
    have hresolve : jsOr (getField body ("mode".toList)) (Json.str ("image".toList))
        = Json.str ("image".toList) := by
      rcases hmode with hnone | ⟨mv, hmv, hfalsy⟩
      · unfold jsOr
        rw [hnone]
      · unfold jsOr
        rw [hmv]
        dsimp only
        rw [hfalsy]
        rfl
    rw [handler_post_ok env hkey hmodel body up, handleBody_image up hresolve, himg]
    rfl
  · intro env body up mv hkey hmodel hmv htruthy hnimg hntext
    have hresolve : jsOr (getField body ("mode".toList)) (Json.str ("image".toList)) = mv := by
      unfold jsOr
      rw [hmv]
      dsimp only
      rw [htruthy]
      rfl
    rw [handler_post_ok env hkey hmodel body up]
    unfold handleBody
    rw [hresolve]
    rw [if_neg (by intro hcontra; rw [hnimg] at hcontra; exact absurd hcontra (by decide)),
      if_neg (by intro hcontra; rw [hntext] at hcontra; exact absurd hcontra (by decide))]
  · intro env b1 b2 up hmode hm hi
    have hmode2 : jsOr (getField b2 ("mode".toList)) (Json.str ("image".toList))
        = Json.str ("image".toList) := by
      rw [← hm]
      exact hmode
    by_cases henv : envStrTruthy env.arkApiKey = true ∧ envStrTruthy env.arkModel = true
    · rw [handler_post_ok env henv.1 henv.2 b1 up, handler_post_ok env henv.1 henv.2 b2 up]
      rw [handleBody_image up hmode, handleBody_image up hmode2, hi]
    · rw [handler_badenv env henv (Except.ok b1) up, handler_badenv env henv (Except.ok b2) up]

/-- Witness for the amended C10: an empty body (no mode, no image), a
numeric mode `5`, and two image-mode bodies differing only in a `prompt`
field. -/
theorem c10_mode_dispatch_amended_witness :
    (handler ⟨some ("k".toList), some ("m".toList), none⟩ ("POST".toList)
        (Except.ok (Json.obj [])) UpstreamOutcome.timeout
      = (⟨400, some (errObj ("Missing imageBase64".toList))⟩, false)) ∧
    (handler ⟨some ("k".toList), some ("m".toList), none⟩ ("POST".toList)
        (Except.ok (Json.obj [("mode".toList, Json.num 5)])) UpstreamOutcome.timeout
      = (⟨400, some (errObjD ("Invalid mode".toList)
          ("mode 只能是 \"image\" 或 \"text\"".toList))⟩, false)) ∧
    (handler ⟨some ("k".toList), some ("m".toList), none⟩ ("POST".toList)
        (Except.ok (Json.obj [])) UpstreamOutcome.timeout
      = handler ⟨some ("k".toList), some ("m".toList), none⟩ ("POST".toList)
        (Except.ok (Json.obj [("prompt".toList, Json.str ("hi".toList))]))
        UpstreamOutcome.timeout) :=
  ⟨c10_mode_dispatch_amended.1 ⟨some ("k".toList), some ("m".toList), none⟩
      (Json.obj []) UpstreamOutcome.timeout (by rfl) (by rfl) (Or.inl (by rfl)) (by rfl),
   c10_mode_dispatch_amended.2.1 ⟨some ("k".toList), some ("m".toList), none⟩
      (Json.obj [("mode".toList, Json.num 5)]) UpstreamOutcome.timeout (Json.num 5)
      (by rfl) (by rfl) (by rfl) (by rfl) (by rfl) (by rfl),
   c10_mode_dispatch_amended.2.2 ⟨some ("k".toList), some ("m".toList), none⟩
      (Json.obj []) (Json.obj [("prompt".toList, Json.str ("hi".toList))])
      UpstreamOutcome.timeout (by rfl) (by rfl) (by rfl)⟩

theorem round_mono_rat {x y : ℚ} (hxy : x ≤ y) : round x ≤ round y := by
  rw [round_eq, round_eq]
  exact Int.floor_mono (by linarith)

/-- Claim C6: when either source dimension strictly exceeds the preset's
`maxDim`, the encoded surface's larger side is exactly `maxDim` and the
smaller side is the proportionally scaled value rounded to an integer,
within half a pixel of the exact proportional value; a source already
within `maxDim` keeps both dimensions unchanged. -/
theorem c6_codec_scaling (maxDim w h : ℕ) (hw : 0 < w) (_hh : 0 < h) :
    (maxDim < max w h →
      max (canvasWidth maxDim w h) (canvasHeight maxDim w h) = (maxDim : ℤ) ∧
      min (canvasWidth maxDim w h) (canvasHeight maxDim w h)
        = round (((min w h : ℕ) : ℚ) * (maxDim : ℚ) / ((max w h : ℕ) : ℚ)) ∧
      |((min (canvasWidth maxDim w h) (canvasHeight maxDim w h) : ℤ) : ℚ)
          - ((min w h : ℕ) : ℚ) * (maxDim : ℚ) / ((max w h : ℕ) : ℚ)| ≤ 1 / 2) ∧
    (max w h ≤ maxDim →
      canvasWidth maxDim w h = (w : ℤ) ∧ canvasHeight maxDim w h = (h : ℤ)) := by
  constructor
  · intro hlt
    have hM0 : 0 < max w h := lt_of_le_of_lt (Nat.zero_le _) hlt
    have hMQ : (0 : ℚ) < ((max w h : ℕ) : ℚ) := by exact_mod_cast hM0
    have hscale : canvasScale maxDim w h = (maxDim : ℚ) / ((max w h : ℕ) : ℚ) := by
      unfold canvasScale
      rw [min_eq_right]
      rw [div_le_one hMQ]
      exact_mod_cast hlt.le
    have hq0 : 0 ≤ (maxDim : ℚ) / ((max w h : ℕ) : ℚ) := by positivity
    have hbig : ∀ M : ℕ, M = max w h →
        round ((M : ℚ) * ((maxDim : ℚ) / ((max w h : ℕ) : ℚ))) = (maxDim : ℤ) := by
      intro M hM
      have hval : (M : ℚ) * ((maxDim : ℚ) / ((max w h : ℕ) : ℚ)) = (maxDim : ℚ) := by
        subst hM
        field_simp
      rw [hval]
      exact round_natCast maxDim
    have hsmall : ∀ m : ℕ,
        (m : ℚ) * ((maxDim : ℚ) / ((max w h : ℕ) : ℚ))
          = (m : ℚ) * (maxDim : ℚ) / ((max w h : ℕ) : ℚ) := by
      intro m
      ring
    rcases le_total w h with hwh | hwh
    · have hmax : max w h = h := max_eq_right hwh
      have hmin : min w h = w := min_eq_left hwh
      have hmono : canvasWidth maxDim w h ≤ canvasHeight maxDim w h := by
        unfold canvasWidth canvasHeight
        rw [hscale]
        exact round_mono_rat (by
          apply mul_le_mul_of_nonneg_right _ hq0
          exact_mod_cast hwh)
      have hhv : canvasHeight maxDim w h = (maxDim : ℤ) := by
        unfold canvasHeight
        rw [hscale]
        exact hbig h hmax.symm
      refine ⟨?_, ?_, ?_⟩
      · rw [max_eq_right hmono, hhv]
      · rw [min_eq_left hmono, hmin]
        unfold canvasWidth
        rw [hscale, hsmall w]
      · rw [min_eq_left hmono, hmin]
        unfold canvasWidth
        rw [hscale, hsmall w]
        rw [abs_sub_comm]
        exact abs_sub_round _
    · have hmax : max w h = w := max_eq_left hwh
      have hmin : min w h = h := min_eq_right hwh
      have hmono : canvasHeight maxDim w h ≤ canvasWidth maxDim w h := by
        unfold canvasWidth canvasHeight
        rw [hscale]
        exact round_mono_rat (by
          apply mul_le_mul_of_nonneg_right _ hq0
          exact_mod_cast hwh)
      have hwv : canvasWidth maxDim w h = (maxDim : ℤ) := by
        unfold canvasWidth
        rw [hscale]
        exact hbig w hmax.symm
      refine ⟨?_, ?_, ?_⟩
      · rw [max_eq_left hmono, hwv]
      · rw [min_eq_right hmono, hmin]
        unfold canvasHeight
        rw [hscale, hsmall h]
      · rw [min_eq_right hmono, hmin]
        unfold canvasHeight
        rw [hscale, hsmall h]
        rw [abs_sub_comm]
        exact abs_sub_round _
  · intro hle
    have hM0 : 0 < max w h := lt_of_lt_of_le hw (le_max_left w h)
    have hMQ : (0 : ℚ) < ((max w h : ℕ) : ℚ) := by exact_mod_cast hM0
    have hscale : canvasScale maxDim w h = 1 := by
      unfold canvasScale
      rw [min_eq_left]
      rw [le_div_iff₀ hMQ, one_mul]
      exact_mod_cast hle
    constructor
    · unfold canvasWidth
      rw [hscale, mul_one]
      exact round_natCast w
    · unfold canvasHeight
      rw [hscale, mul_one]
      exact round_natCast h

/-- Witness for C6 at a 4 by 3 source and a preset cap of 2, and at the
same source with a cap of 8 (no upscaling). -/
theorem c6_codec_scaling_witness :
    ((2 < max 4 3 →
      max (canvasWidth 2 4 3) (canvasHeight 2 4 3) = (2 : ℤ) ∧
      min (canvasWidth 2 4 3) (canvasHeight 2 4 3)
        = round (((min 4 3 : ℕ) : ℚ) * (2 : ℚ) / ((max 4 3 : ℕ) : ℚ)) ∧
      |((min (canvasWidth 2 4 3) (canvasHeight 2 4 3) : ℤ) : ℚ)
          - ((min 4 3 : ℕ) : ℚ) * (2 : ℚ) / ((max 4 3 : ℕ) : ℚ)| ≤ 1 / 2) ∧
    (max 4 3 ≤ 2 → canvasWidth 2 4 3 = (4 : ℤ) ∧ canvasHeight 2 4 3 = (3 : ℤ))) ∧
    ((8 < max 4 3 →
      max (canvasWidth 8 4 3) (canvasHeight 8 4 3) = (8 : ℤ) ∧
      min (canvasWidth 8 4 3) (canvasHeight 8 4 3)
        = round (((min 4 3 : ℕ) : ℚ) * (8 : ℚ) / ((max 4 3 : ℕ) : ℚ)) ∧
      |((min (canvasWidth 8 4 3) (canvasHeight 8 4 3) : ℤ) : ℚ)
          - ((min 4 3 : ℕ) : ℚ) * (8 : ℚ) / ((max 4 3 : ℕ) : ℚ)| ≤ 1 / 2) ∧
    (max 4 3 ≤ 8 → canvasWidth 8 4 3 = (4 : ℤ) ∧ canvasHeight 8 4 3 = (3 : ℤ))) :=
  ⟨c6_codec_scaling 2 4 3 (by decide) (by decide),
   c6_codec_scaling 8 4 3 (by decide) (by decide)⟩

/-- Witness for C1: the live-capture ladder with a synthetic encoder
whose base64 length is the preset's maximum dimension and a 1000-byte
budget. -/
theorem c1_shaper_first_fit_witness :
    ∃ (r : List Char × Nat) (k : Nat),
      autoCompressLoop (fun p => List.replicate p.maxDim 'A') 1000 videoAttempts
        = some (r, k) ∧
      k ≤ videoAttempts.length ∧
      ((∃ a, videoAttempts.find?
          (fun a => decide (approxBase64Bytes (List.replicate a.maxDim 'A') ≤ 1000)) = some a ∧
          r = mkAttempt (fun p => List.replicate p.maxDim 'A') a) ∨
        (videoAttempts.find?
          (fun a => decide (approxBase64Bytes (List.replicate a.maxDim 'A') ≤ 1000)) = none ∧
          r = mkAttempt (fun p => List.replicate p.maxDim 'A')
            (videoAttempts.getLast (by unfold videoAttempts; exact List.cons_ne_nil _ _)))) :=
  c1_shaper_first_fit (fun p => List.replicate p.maxDim 'A') 1000 videoAttempts
    (by unfold videoAttempts; exact List.cons_ne_nil _ _)

end Dinoscan
